import Mathlib

/-!
Shallow embedding of `src/app.py` (performance-tracker), a two-front-end
(web dashboard + interactive console) monthly-profit tracker sharing one
JSON data file.  Currency amounts are Python floats in the source; they are
modelled here as exact rationals (`ℚ`), and Python float floor-division
`x // y` is modelled as `⌊x / y⌋`.  A Python `dict` keyed by `int` months
is modelled as an association list with dict update semantics (replace in
place when the key is present, append otherwise); dict key order is
insertion order, as in CPython.
-/

namespace Config

/-- `Config.START_MONTH` (app.py line 15 / 140). -/
def START_MONTH : Nat := 2

/-- `Config.END_MONTH` (app.py line 16 / 141). -/
def END_MONTH : Nat := 12

/-- `Config.MONTHLY_TARGET` (app.py line 17 / 142). -/
def MONTHLY_TARGET : ℚ := 180000

/-- `Config.ANNUAL_TARGET` (app.py line 18 / 143). -/
def ANNUAL_TARGET : ℚ := 2300000

/-- `Config.SURPLUS_BONUS_THRESHOLD` (app.py line 19 / 144). -/
def SURPLUS_BONUS_THRESHOLD : ℚ := 100000

/-- `Config.SURPLUS_BONUS_AMOUNT` (app.py line 20 / 145). -/
def SURPLUS_BONUS_AMOUNT : ℚ := 10000

end Config

/-- One month's persisted record: the JSON object
`{"actual_profit": ..., "performance_diff": ...}` (app.py lines 63-66, 235-238). -/
structure MonthlyRecord where
  actual_profit : ℚ
  performance_diff : ℚ
deriving DecidableEq, Repr

/-- The record store: a Python dict from month number to record, modelled as an
association list in dict (insertion) order. -/
abbrev RecordStore := List (Nat × MonthlyRecord)

/-- Dict lookup `records[month]` / `month in records`: first (and, with unique
keys, only) binding wins. -/
def lookupMonth : RecordStore → Nat → Option MonthlyRecord
  | [], _ => none
  | (k, r) :: rest, m => if k = m then some r else lookupMonth rest m

/-- Dict update `records[month] = rec`: replace the value in place when the key
is present (CPython keeps the key's position), append otherwise. -/
def dictInsert (records : RecordStore) (month : Nat) (rec : MonthlyRecord) : RecordStore :=
  if month ∈ records.map Prod.fst then
    records.map (fun p => if p.1 = month then (month, rec) else p)
  else
    records ++ [(month, rec)]

/-- `PerformanceTracker._update_month_record` (app.py lines 232-238): store a
record with `performance_diff = actual_profit - MONTHLY_TARGET`.  The dashboard
save handler (lines 57-68) performs the same computation inline. -/
def _update_month_record (records : RecordStore) (month : Nat) (actual_profit : ℚ) :
    RecordStore :=
  dictInsert records month
    { actual_profit := actual_profit
      performance_diff := actual_profit - Config.MONTHLY_TARGET }

/-- A full upsert from the user-facing unit: both front-ends read the profit in
units of ten-thousand and multiply by 10000 (app.py lines 59, 228) before
storing. -/
def upsert (records : RecordStore) (month : Nat) (raw : ℚ) : RecordStore :=
  _update_month_record records month (raw * 10000)

/-- A sequence of upserts applied in order to a store. -/
def applyUpserts (records : RecordStore) (ops : List (Nat × ℚ)) : RecordStore :=
  ops.foldl (fun s op => upsert s op.1 op.2) records

/-- Dashboard aggregate (app.py line 75):
`sum(rec['actual_profit'] for rec in records.values())`. -/
def dashboard_cumulative_profit (records : RecordStore) : ℚ :=
  (records.map (fun p => p.2.actual_profit)).sum

/-- Dashboard aggregate (app.py line 76):
`sum(abs(rec['performance_diff']) for rec in records.values() if rec['performance_diff'] < 0)`. -/
def dashboard_total_deductions (records : RecordStore) : ℚ :=
  ((records.filter (fun p => p.2.performance_diff < 0)).map
    (fun p => |p.2.performance_diff|)).sum

/-- One iteration of the accumulation loop in
`PerformanceTracker._recalculate_totals` (app.py lines 217-221); the `none`
branch is unreachable because the loop only visits keys of the dict. -/
def recalcStep (records : RecordStore) (acc : ℚ × ℚ) (month : Nat) : ℚ × ℚ :=
  match lookupMonth records month with
  | none => acc
  | some record =>
      (acc.1 + record.actual_profit,
        if record.performance_diff < 0 then acc.2 + |record.performance_diff| else acc.2)

/-- `sorted(self.records.keys())` (app.py line 216), modelled with a stable
sort. -/
def sortedMonths (records : RecordStore) : List Nat :=
  List.insertionSort (· ≤ ·) (records.map Prod.fst)

/-- `PerformanceTracker._recalculate_totals` (app.py lines 211-221): reset both
accumulators to zero, then walk the months in ascending order. -/
def _recalculate_totals (records : RecordStore) : ℚ × ℚ :=
  (sortedMonths records).foldl (recalcStep records) (0, 0)

/-- The mutable state of a `PerformanceTracker` instance (app.py lines 182-185). -/
structure TrackerState where
  records : RecordStore
  cumulative_profit : ℚ
  total_deductions : ℚ
deriving DecidableEq, Repr

/-- The effect of calling `self._recalculate_totals()` on the tracker object:
both aggregate fields are overwritten from `self.records`. -/
def recalcTracker (st : TrackerState) : TrackerState :=
  { st with
    cumulative_profit := (_recalculate_totals st.records).1
    total_deductions := (_recalculate_totals st.records).2 }

/-- Outcome of the year-end bonus computation. -/
inductive BonusResult where
  | NotEligible : BonusResult
  | Eligible (clawback surplus total_bonus : ℚ) : BonusResult
deriving DecidableEq, Repr

/-- The dashboard's year-end bonus block (app.py lines 106-109):
`clawback = total_deductions`;
`surplus = ((cumulative_profit - ANNUAL_TARGET) // SURPLUS_BONUS_THRESHOLD) * SURPLUS_BONUS_AMOUNT`;
`total_bonus = clawback + surplus`; the `else` branch refunds nothing. -/
def dashboard_bonus (cumulative_profit total_deductions : ℚ) : BonusResult :=
  if Config.ANNUAL_TARGET ≤ cumulative_profit then
    BonusResult.Eligible total_deductions
      ((((cumulative_profit - Config.ANNUAL_TARGET) / Config.SURPLUS_BONUS_THRESHOLD).floor : ℚ) *
        Config.SURPLUS_BONUS_AMOUNT)
      (total_deductions +
        (((cumulative_profit - Config.ANNUAL_TARGET) / Config.SURPLUS_BONUS_THRESHOLD).floor : ℚ) *
          Config.SURPLUS_BONUS_AMOUNT)
  else BonusResult.NotEligible

/-- The bonus computation inside `PerformanceTracker._display_final_summary`
(app.py lines 350-361): `clawback_bonus = self.total_deductions`;
`surplus_profit = cumulative_profit - ANNUAL_TARGET`;
`surplus_bonus = (surplus_profit // SURPLUS_BONUS_THRESHOLD) * SURPLUS_BONUS_AMOUNT`;
`total_bonus = clawback_bonus + surplus_bonus`. -/
def console_final_bonus (cumulative_profit total_deductions : ℚ) : BonusResult :=
  if Config.ANNUAL_TARGET ≤ cumulative_profit then
    BonusResult.Eligible total_deductions
      ((((cumulative_profit - Config.ANNUAL_TARGET) / Config.SURPLUS_BONUS_THRESHOLD).floor : ℚ) *
        Config.SURPLUS_BONUS_AMOUNT)
      (total_deductions +
        (((cumulative_profit - Config.ANNUAL_TARGET) / Config.SURPLUS_BONUS_THRESHOLD).floor : ℚ) *
          Config.SURPLUS_BONUS_AMOUNT)
  else BonusResult.NotEligible

/-- Specification-side bonus function, written from the spec's own words
(section 4.2 `compute_bonus`): eligibility test `cumulative_profit <
ANNUAL_TARGET`, integer tier count by floor division, refund of all
deductions.  Kept separate from the two source-side definitions so the
refinement can be stated. -/
def compute_bonus_spec (cumulative_profit total_deductions : ℚ) : BonusResult :=
  if cumulative_profit < Config.ANNUAL_TARGET then BonusResult.NotEligible
  else
    BonusResult.Eligible total_deductions
      (((⌊(cumulative_profit - Config.ANNUAL_TARGET) / Config.SURPLUS_BONUS_THRESHOLD⌋ : ℤ) : ℚ) *
        Config.SURPLUS_BONUS_AMOUNT)
      (total_deductions +
        ((⌊(cumulative_profit - Config.ANNUAL_TARGET) / Config.SURPLUS_BONUS_THRESHOLD⌋ : ℤ) : ℚ) *
          Config.SURPLUS_BONUS_AMOUNT)

/-- The JSON object persisted by `save_data` / `json.dump`: keys are the decimal
string encodings of the month numbers (JSON object keys must be strings),
modelled as base-10 digit lists; values are the two-field numeric records,
which Python's float repr serializes losslessly. -/
abbrev JsonObject := List (List Nat × MonthlyRecord)

/-- The possible states of the data file as seen by a loader: missing,
unparseable (a `json.JSONDecodeError` on read), or a well-formed JSON object. -/
inductive FileContent where
  | absent : FileContent
  | malformed : FileContent
  | wellFormed (data : JsonObject) : FileContent
deriving DecidableEq, Repr

/-- The key conversion `{int(k): v for k, v in json.load(f).items()}` (app.py
lines 27, 194): decode each decimal string key back to an integer, keep the
value verbatim. -/
def parseStore (data : JsonObject) : RecordStore :=
  data.map (fun p => (Nat.ofDigits 10 p.1, p.2))

/-- `json.dump(records, f, ...)` (app.py lines 30-32, 206-207): serialize every
month key as its decimal string and every record as its two numeric fields. -/
def save_data (records : RecordStore) : FileContent :=
  FileContent.wellFormed (records.map (fun p => (Nat.digits 10 p.1, p.2)))

/-- The dashboard's `load_data` (app.py lines 24-28): return `{}` when the file
does not exist, otherwise parse it.  There is no exception handler, so a
malformed file propagates the `json.JSONDecodeError` (modelled as
`Except.error`). -/
def load_data : FileContent → Except Unit RecordStore
  | FileContent.absent => Except.ok []
  | FileContent.malformed => Except.error ()
  | FileContent.wellFormed data => Except.ok (parseStore data)

/-- The message class the console loader prints. -/
inductive LoadMessage where
  | success : LoadMessage
  | warning : LoadMessage
  | info : LoadMessage
deriving DecidableEq, Repr

/-- `PerformanceTracker._load_data` (app.py lines 188-201): missing file keeps
the empty store (info message); a `json.JSONDecodeError` or `IOError` is caught,
the store is reset to `{}` and a warning is shown; otherwise the parsed records
are taken over verbatim. -/
def _load_data : FileContent → RecordStore × LoadMessage
  | FileContent.absent => ([], LoadMessage.info)
  | FileContent.malformed => ([], LoadMessage.warning)
  | FileContent.wellFormed data => (parseStore data, LoadMessage.success)

/-- `PerformanceTracker._save_data` (app.py lines 203-209), with the I/O outcome
made explicit: on success the file now holds the serialized records; an
`IOError` is caught and only reported (`Bool` flag = an error message was
printed), leaving the tracker state untouched either way.  On failure the file
is modelled as unchanged; the claim under test only concerns the in-memory
state and the surfaced message. -/
def _save_data (st : TrackerState) (ioOk : Bool) (file : FileContent) :
    TrackerState × FileContent × Bool :=
  if ioOk then (st, save_data st.records, false)
  else (st, file, true)

/-- Largest key of the store, `max(self.records.keys())`, modelled as a fold;
it is only ever consulted on a nonempty store, where the fold agrees with
Python's `max`. -/
def maxKey (records : RecordStore) : Nat :=
  (records.map Prod.fst).foldr max 0

/-- `PerformanceTracker._get_next_month` (app.py lines 280-285). -/
def _get_next_month (records : RecordStore) : Nat :=
  if records = [] then Config.START_MONTH
  else maxKey records + 1

/-- The console loop's exit condition into the final summary (app.py lines
257-263): `next_month > Config.END_MONTH`. -/
def consoleYearComplete (records : RecordStore) : Prop :=
  _get_next_month records > Config.END_MONTH

/-- The dashboard's gate for the year-end bonus panel (app.py line 103):
`len(records) >= END_MONTH - START_MONTH + 1`. -/
def dashboardYearComplete (records : RecordStore) : Prop :=
  records.length ≥ Config.END_MONTH - Config.START_MONTH + 1

/-- The claim's reading of "year complete": every month of
`[START_MONTH, END_MONTH]` has a record. -/
def allMonthsFilled (records : RecordStore) : Prop :=
  ∀ m ∈ List.range' Config.START_MONTH (Config.END_MONTH - Config.START_MONTH + 1),
    m ∈ records.map Prod.fst

instance (records : RecordStore) : Decidable (consoleYearComplete records) := by
  unfold consoleYearComplete; infer_instance

instance (records : RecordStore) : Decidable (dashboardYearComplete records) := by
  unfold dashboardYearComplete; infer_instance

instance (records : RecordStore) : Decidable (allMonthsFilled records) := by
  unfold allMonthsFilled; infer_instance

/-- Contribution of one visited month to the cumulative profit (proof-side view
of one `recalcStep`). -/
def apOf (records : RecordStore) (m : Nat) : ℚ :=
  (lookupMonth records m).elim 0 (fun r => r.actual_profit)

/-- Contribution of one visited month to the total deductions (proof-side view
of one `recalcStep`). -/
def dedOf (records : RecordStore) (m : Nat) : ℚ :=
  (lookupMonth records m).elim 0
    (fun r => if r.performance_diff < 0 then |r.performance_diff| else 0)

/-- On rationals, the computable `Rat.floor` agrees with the order-theoretic
floor. -/
theorem rat_floor_eq_intFloor (q : ℚ) : (q.floor : ℤ) = ⌊q⌋ :=
  (Rat.floor_def' q).trans Rat.floor_def.symm

/-! ### Lookup and key lemmas -/

theorem lookupMonth_eq_none_iff (records : RecordStore) (m : Nat) :
    lookupMonth records m = none ↔ m ∉ records.map Prod.fst := by
  induction records with
  | nil => simp [lookupMonth]
  | cons p t ih =>
      obtain ⟨k, r⟩ := p
      by_cases hk : k = m
      · subst hk
        simp [lookupMonth]
      · simp only [lookupMonth, if_neg hk, List.map_cons, List.mem_cons, not_or, ih]
        constructor
        · exact fun h => ⟨fun hmk => hk hmk.symm, h⟩
        · exact fun h => h.2

theorem mem_of_lookupMonth_eq_some {records : RecordStore} {m : Nat} {r : MonthlyRecord}
    (h : lookupMonth records m = some r) : (m, r) ∈ records := by
  induction records with
  | nil => simp [lookupMonth] at h
  | cons p t ih =>
      obtain ⟨k, r'⟩ := p
      by_cases hk : k = m
      · subst hk
        simp [lookupMonth] at h
        subst h
        exact List.mem_cons_self _ _
      · simp [lookupMonth, hk] at h
        exact List.mem_cons_of_mem _ (ih h)

theorem keys_mem_of_lookupMonth_eq_some {records : RecordStore} {m : Nat} {r : MonthlyRecord}
    (h : lookupMonth records m = some r) : m ∈ records.map Prod.fst := by
  have := mem_of_lookupMonth_eq_some h
  exact List.mem_map.2 ⟨(m, r), this, rfl⟩

theorem lookupMonth_eq_some_of_mem {records : RecordStore} {m : Nat} {r : MonthlyRecord}
    (hnd : (records.map Prod.fst).Nodup) (h : (m, r) ∈ records) :
    lookupMonth records m = some r := by
  induction records with
  | nil => simp at h
  | cons p t ih =>
      obtain ⟨k, r'⟩ := p
      simp only [List.map_cons, List.nodup_cons] at hnd
      rcases List.mem_cons.1 h with h0 | h0
      · injection h0 with h1 h2
        subst h1
        subst h2
        simp [lookupMonth]
      · have hkm : k ≠ m := by
          rintro rfl
          exact hnd.1 (List.mem_map.2 ⟨(k, r), h0, rfl⟩)
        simp [lookupMonth, hkm, ih hnd.2 h0]

/-! ### Characterizing the `_recalculate_totals` fold -/

theorem foldl_recalcStep (records : RecordStore) (l : List Nat) (a b : ℚ) :
    l.foldl (recalcStep records) (a, b) =
      (a + (l.map (apOf records)).sum, b + (l.map (dedOf records)).sum) := by
  induction l generalizing a b with
  | nil => simp
  | cons m l ih =>
      simp only [List.foldl_cons, List.map_cons, List.sum_cons]
      rw [show recalcStep records (a, b) m =
          (a + apOf records m, b + dedOf records m) from ?_, ih]
      · simp only [Prod.mk.injEq]
        constructor <;> ring
      · unfold recalcStep apOf dedOf
        cases h : lookupMonth records m with
        | none => simp
        | some r =>
            by_cases hneg : r.performance_diff < 0 <;> simp [hneg]

theorem sum_apOf_keys (records : RecordStore) (hnd : (records.map Prod.fst).Nodup) :
    ((records.map Prod.fst).map (apOf records)).sum = dashboard_cumulative_profit records := by
  induction records with
  | nil => simp [dashboard_cumulative_profit]
  | cons p t ih =>
      obtain ⟨k, r⟩ := p
      simp only [List.map_cons, List.nodup_cons] at hnd ⊢
      have hhead : apOf ((k, r) :: t) k = r.actual_profit := by
        simp [apOf, lookupMonth]
      have htail : (t.map Prod.fst).map (apOf ((k, r) :: t)) =
          (t.map Prod.fst).map (apOf t) := by
        refine List.map_congr_left ?_
        intro m hm
        have hkm : k ≠ m := fun h => hnd.1 (h ▸ hm)
        simp [apOf, lookupMonth, hkm]
      simp only [List.sum_cons, hhead, htail, ih hnd.2]
      simp [dashboard_cumulative_profit]

theorem sum_dedOf_keys (records : RecordStore) (hnd : (records.map Prod.fst).Nodup) :
    ((records.map Prod.fst).map (dedOf records)).sum = dashboard_total_deductions records := by
  induction records with
  | nil => simp [dashboard_total_deductions]
  | cons p t ih =>
      obtain ⟨k, r⟩ := p
      simp only [List.map_cons, List.nodup_cons] at hnd ⊢
      have hhead : dedOf ((k, r) :: t) k =
          if r.performance_diff < 0 then |r.performance_diff| else 0 := by
        simp [dedOf, lookupMonth]
      have htail : (t.map Prod.fst).map (dedOf ((k, r) :: t)) =
          (t.map Prod.fst).map (dedOf t) := by
        refine List.map_congr_left ?_
        intro m hm
        have hkm : k ≠ m := fun h => hnd.1 (h ▸ hm)
        simp [dedOf, lookupMonth, hkm]
      simp only [List.sum_cons, hhead, htail, ih hnd.2]
      by_cases hneg : r.performance_diff < 0 <;>
        simp [dashboard_total_deductions, List.filter, hneg]

/-- The console recompute equals the dashboard's direct sums over the record
set, for any store with unique keys (every Python dict). -/
theorem recalc_eq_direct (records : RecordStore) (hnd : (records.map Prod.fst).Nodup) :
    _recalculate_totals records =
      (dashboard_cumulative_profit records, dashboard_total_deductions records) := by
  unfold _recalculate_totals
  rw [foldl_recalcStep]
  have hperm : List.Perm (sortedMonths records) (records.map Prod.fst) :=
    List.perm_insertionSort _ _
  rw [(hperm.map (apOf records)).sum_eq, (hperm.map (dedOf records)).sum_eq,
    sum_apOf_keys records hnd, sum_dedOf_keys records hnd]
  simp

/-! ### Order independence of the recompute -/

theorem lookupMonth_eq_of_perm {s t : RecordStore} (hnd : (s.map Prod.fst).Nodup)
    (hp : List.Perm s t) (m : Nat) : lookupMonth s m = lookupMonth t m := by
  have hndt : (t.map Prod.fst).Nodup := ((hp.map Prod.fst).nodup_iff).1 hnd
  cases h : lookupMonth s m with
  | none =>
      have hm : m ∉ s.map Prod.fst := (lookupMonth_eq_none_iff s m).1 h
      have hmt : m ∉ t.map Prod.fst := fun hc => hm (((hp.map Prod.fst).mem_iff).2 hc)
      exact ((lookupMonth_eq_none_iff t m).2 hmt).symm
  | some r =>
      have hmem : (m, r) ∈ t := hp.subset (mem_of_lookupMonth_eq_some h)
      exact (lookupMonth_eq_some_of_mem hndt hmem).symm

theorem sortedMonths_eq_of_perm {s t : RecordStore} (hp : List.Perm s t) :
    sortedMonths s = sortedMonths t := by
  refine List.eq_of_perm_of_sorted ?_ (List.sorted_insertionSort _ _) (List.sorted_insertionSort _ _)
  exact (List.perm_insertionSort _ _).trans ((hp.map Prod.fst).trans
    (List.perm_insertionSort _ _).symm)

theorem foldl_recalcStep_congr {s t : RecordStore}
    (hl : ∀ m, lookupMonth s m = lookupMonth t m) (l : List Nat) (init : ℚ × ℚ) :
    l.foldl (recalcStep s) init = l.foldl (recalcStep t) init := by
  induction l generalizing init with
  | nil => rfl
  | cons m l ih =>
      simp only [List.foldl_cons]
      rw [show recalcStep s init m = recalcStep t init m by unfold recalcStep; rw [hl m], ih]

/-- Two stores holding the same records (in any insertion order) recompute to
the same totals. -/
theorem recalc_eq_of_perm {s t : RecordStore} (hnd : (s.map Prod.fst).Nodup)
    (hp : List.Perm s t) : _recalculate_totals s = _recalculate_totals t := by
  unfold _recalculate_totals
  rw [sortedMonths_eq_of_perm hp,
    foldl_recalcStep_congr (lookupMonth_eq_of_perm hnd hp) (sortedMonths t) (0, 0)]

/-! ### Claim theorems -/

/-- C1: for every cumulative profit and total deductions, both the dashboard's
year-end bonus block and the console's final-summary bonus block compute the
spec's `compute_bonus`: below `ANNUAL_TARGET` the result is `NotEligible` with
no refund; otherwise `clawback = total_deductions`,
`surplus = floor((cumulative_profit - ANNUAL_TARGET) / SURPLUS_BONUS_THRESHOLD) * SURPLUS_BONUS_AMOUNT`
and `total_bonus = clawback + surplus`; the two front-ends agree everywhere. -/
theorem C1_bonus_formula (cp td : ℚ) :
    dashboard_bonus cp td = compute_bonus_spec cp td ∧
    console_final_bonus cp td = compute_bonus_spec cp td ∧
    dashboard_bonus cp td = console_final_bonus cp td := by
  have hfloor :=
    rat_floor_eq_intFloor ((cp - Config.ANNUAL_TARGET) / Config.SURPLUS_BONUS_THRESHOLD)
  unfold dashboard_bonus console_final_bonus compute_bonus_spec
  rcases lt_or_le cp Config.ANNUAL_TARGET with h | h
  · rw [if_neg (not_le.mpr h), if_pos h]
    exact ⟨rfl, rfl, rfl⟩
  · rw [if_pos h, if_neg (not_lt.mpr h), hfloor]
    exact ⟨rfl, rfl, rfl⟩

/-- C2: for a record set with unique keys (every Python dict), the console's
recompute equals the dashboard's direct sums (`cumulative_profit` is the sum of
`actual_profit`, `total_deductions` the sum of `abs` over the negative
`performance_diff`s); the result does not depend on the insertion order of the
records, repeating the recompute changes nothing, and the empty store yields
`(0, 0)`. -/
theorem C2_recalculate (s t : RecordStore) (st : TrackerState)
    (hnd : (s.map Prod.fst).Nodup) (hperm : List.Perm s t) :
    _recalculate_totals s =
      (dashboard_cumulative_profit s, dashboard_total_deductions s) ∧
    _recalculate_totals s = _recalculate_totals t ∧
    recalcTracker (recalcTracker st) = recalcTracker st ∧
    _recalculate_totals ([] : RecordStore) = (0, 0) :=
  ⟨recalc_eq_direct s hnd, recalc_eq_of_perm hnd hperm, rfl, rfl⟩

/-- Witness for C2 at a concrete two-month store and its reversal. -/
theorem C2_recalculate_witness :
    (([(3, ⟨200000, 20000⟩), (2, ⟨-50000, -230000⟩)] : RecordStore).map Prod.fst).Nodup ∧
    (_recalculate_totals [(3, ⟨200000, 20000⟩), (2, ⟨-50000, -230000⟩)] =
        (dashboard_cumulative_profit [(3, ⟨200000, 20000⟩), (2, ⟨-50000, -230000⟩)],
          dashboard_total_deductions [(3, ⟨200000, 20000⟩), (2, ⟨-50000, -230000⟩)]) ∧
      _recalculate_totals [(3, ⟨200000, 20000⟩), (2, ⟨-50000, -230000⟩)] =
        _recalculate_totals [(2, ⟨-50000, -230000⟩), (3, ⟨200000, 20000⟩)] ∧
      recalcTracker (recalcTracker ⟨[(3, ⟨200000, 20000⟩), (2, ⟨-50000, -230000⟩)], 0, 0⟩) =
        recalcTracker ⟨[(3, ⟨200000, 20000⟩), (2, ⟨-50000, -230000⟩)], 0, 0⟩ ∧
      _recalculate_totals ([] : RecordStore) = (0, 0)) :=
  ⟨by decide,
    C2_recalculate _ _ _ (by decide)
      (List.Perm.swap ((2, ⟨-50000, -230000⟩) : Nat × MonthlyRecord)
        ((3, ⟨200000, 20000⟩) : Nat × MonthlyRecord) ([] : RecordStore))⟩

/-- C10 (implicit): the recomputed `total_deductions` is nonnegative for every
record set, in both front-ends, while `cumulative_profit` can be negative. -/
theorem C10_deductions_nonneg (records : RecordStore) :
    0 ≤ (_recalculate_totals records).2 ∧
    0 ≤ dashboard_total_deductions records ∧
    ∃ s : RecordStore, (_recalculate_totals s).1 < 0 ∧ dashboard_cumulative_profit s < 0 := by
  refine ⟨?_, ?_, [(2, ⟨-5, -180005⟩)], ?_, ?_⟩
  · unfold _recalculate_totals
    rw [foldl_recalcStep]
    simp only [zero_add]
    refine List.sum_nonneg ?_
    intro x hx
    obtain ⟨m, _, rfl⟩ := List.mem_map.1 hx
    unfold dedOf
    cases lookupMonth records m with
    | none => simp
    | some r => by_cases hneg : r.performance_diff < 0 <;> simp [hneg, abs_nonneg]
  · refine List.sum_nonneg ?_
    intro x hx
    obtain ⟨p, _, rfl⟩ := List.mem_map.1 hx
    exact abs_nonneg _
  · norm_num [_recalculate_totals, sortedMonths, List.insertionSort, List.orderedInsert,
      recalcStep, lookupMonth]
  · norm_num [dashboard_cumulative_profit]

/-! ### Upsert lemmas -/

theorem lookupMonth_append_right {s : RecordStore} {m : Nat}
    (h : m ∉ s.map Prod.fst) (l : RecordStore) :
    lookupMonth (s ++ l) m = lookupMonth l m := by
  induction s with
  | nil => rfl
  | cons p t ih =>
      obtain ⟨k, r⟩ := p
      simp only [List.map_cons, List.mem_cons, not_or] at h
      have hk : k ≠ m := fun hk => h.1 hk.symm
      simp [lookupMonth, hk, ih h.2]

theorem lookupMonth_map_replace_self (s : RecordStore) (m : Nat) (rec : MonthlyRecord)
    (h : m ∈ s.map Prod.fst) :
    lookupMonth (s.map (fun p => if p.1 = m then (m, rec) else p)) m = some rec := by
  induction s with
  | nil => simp at h
  | cons p t ih =>
      obtain ⟨k, r⟩ := p
      simp only [List.map_cons]
      by_cases hk : k = m
      · subst hk
        rw [show (if (k, r).1 = k then (k, rec) else (k, r)) = (k, rec) from if_pos rfl]
        simp [lookupMonth]
      · rw [show (if (k, r).1 = m then (m, rec) else (k, r)) = (k, r) from if_neg hk]
        simp only [List.map_cons, List.mem_cons] at h
        rcases h with h | h
        · exact absurd h.symm hk
        · simp [lookupMonth, hk, ih h]

theorem lookupMonth_dictInsert_self (s : RecordStore) (m : Nat) (rec : MonthlyRecord) :
    lookupMonth (dictInsert s m rec) m = some rec := by
  unfold dictInsert
  split
  · next h => exact lookupMonth_map_replace_self s m rec h
  · next h =>
      rw [lookupMonth_append_right h]
      simp [lookupMonth]

theorem upsert_inv (s : RecordStore)
    (h : ∀ p ∈ s, p.2.performance_diff = p.2.actual_profit - Config.MONTHLY_TARGET)
    (m : Nat) (raw : ℚ) :
    ∀ p ∈ upsert s m raw,
      p.2.performance_diff = p.2.actual_profit - Config.MONTHLY_TARGET := by
  intro p hp
  unfold upsert _update_month_record dictInsert at hp
  split at hp
  · obtain ⟨q, hq, hpq⟩ := List.mem_map.1 hp
    by_cases hqm : q.1 = m
    · rw [if_pos hqm] at hpq
      subst hpq
      rfl
    · rw [if_neg hqm] at hpq
      subst hpq
      exact h q hq
  · rcases List.mem_append.1 hp with hp0 | hp0
    · exact h p hp0
    · have : p = (m, ⟨raw * 10000, raw * 10000 - Config.MONTHLY_TARGET⟩) := by
        simpa using hp0
      subst this
      rfl

theorem applyUpserts_inv (ops : List (Nat × ℚ)) :
    ∀ p ∈ applyUpserts [] ops,
      p.2.performance_diff = p.2.actual_profit - Config.MONTHLY_TARGET := by
  have key : ∀ (l : List (Nat × ℚ)) (s : RecordStore),
      (∀ p ∈ s, p.2.performance_diff = p.2.actual_profit - Config.MONTHLY_TARGET) →
      ∀ p ∈ applyUpserts s l,
        p.2.performance_diff = p.2.actual_profit - Config.MONTHLY_TARGET := by
    intro l
    induction l with
    | nil => intro s hs; simpa [applyUpserts] using hs
    | cons op l ih =>
        intro s hs
        simp only [applyUpserts, List.foldl_cons]
        exact ih (upsert s op.1 op.2) (upsert_inv s hs op.1 op.2)
  exact key ops [] (by simp)

/-- C3: immediately after an upsert, the stored record for the written month has
`actual_profit = raw * 10000` and
`performance_diff = actual_profit - MONTHLY_TARGET`; moreover every record of a
store built entirely by upserts satisfies that equation. -/
theorem C3_upsert_postcondition (s : RecordStore) (m : Nat) (raw : ℚ)
    (ops : List (Nat × ℚ)) (p : Nat × MonthlyRecord) (hp : p ∈ applyUpserts [] ops) :
    lookupMonth (upsert s m raw) m =
      some { actual_profit := raw * 10000
             performance_diff := raw * 10000 - Config.MONTHLY_TARGET } ∧
    p.2.performance_diff = p.2.actual_profit - Config.MONTHLY_TARGET :=
  ⟨lookupMonth_dictInsert_self s m _, applyUpserts_inv ops p hp⟩

/-- Witness for C3 at the concrete upsert of 20 (ten-thousands) into month 3. -/
theorem C3_upsert_witness :
    ((3, ⟨20 * 10000, 20 * 10000 - Config.MONTHLY_TARGET⟩) : Nat × MonthlyRecord) ∈
        applyUpserts [] [(3, 20)] ∧
    (lookupMonth (upsert [] 3 20) 3 =
        some { actual_profit := 20 * 10000
               performance_diff := 20 * 10000 - Config.MONTHLY_TARGET } ∧
      ((3, ⟨20 * 10000, 20 * 10000 - Config.MONTHLY_TARGET⟩) : Nat × MonthlyRecord).2.performance_diff =
        ((3, ⟨20 * 10000, 20 * 10000 - Config.MONTHLY_TARGET⟩) : Nat × MonthlyRecord).2.actual_profit -
          Config.MONTHLY_TARGET) :=
  ⟨List.mem_cons_self _ _,
    C3_upsert_postcondition [] 3 20 [(3, 20)] _ (List.mem_cons_self _ _)⟩

/-! ### Frame lemmas for editing an existing month -/

theorem lookupMonth_map_replace_ne (s : RecordStore) (m mq : Nat) (rec : MonthlyRecord)
    (hne : mq ≠ m) :
    lookupMonth (s.map (fun p => if p.1 = m then (m, rec) else p)) mq = lookupMonth s mq := by
  induction s with
  | nil => rfl
  | cons p t ih =>
      obtain ⟨k, r⟩ := p
      simp only [List.map_cons]
      by_cases hk : k = m
      · subst hk
        rw [show (if (k, r).1 = k then (k, rec) else (k, r)) = (k, rec) from if_pos rfl]
        have hkq : k ≠ mq := fun h => hne h.symm
        simp [lookupMonth, hkq, ih]
      · rw [show (if (k, r).1 = m then (m, rec) else (k, r)) = (k, r) from if_neg hk]
        by_cases hkq : k = mq <;> simp [lookupMonth, hkq, ih]

theorem lookupMonth_append_single_ne (s : RecordStore) (m mq : Nat) (rec : MonthlyRecord)
    (hne : mq ≠ m) :
    lookupMonth (s ++ [(m, rec)]) mq = lookupMonth s mq := by
  induction s with
  | nil =>
      have hmq : m ≠ mq := fun h => hne h.symm
      simp [lookupMonth, hmq]
  | cons p t ih =>
      obtain ⟨k, r⟩ := p
      by_cases hkq : k = mq <;> simp [lookupMonth, hkq, ih]

theorem lookupMonth_dictInsert_ne (s : RecordStore) (m mq : Nat) (rec : MonthlyRecord)
    (hne : mq ≠ m) :
    lookupMonth (dictInsert s m rec) mq = lookupMonth s mq := by
  unfold dictInsert
  split
  · exact lookupMonth_map_replace_ne s m mq rec hne
  · exact lookupMonth_append_single_ne s m mq rec hne

theorem keys_dictInsert_of_mem (s : RecordStore) (m : Nat) (rec : MonthlyRecord)
    (h : m ∈ s.map Prod.fst) :
    (dictInsert s m rec).map Prod.fst = s.map Prod.fst := by
  unfold dictInsert
  rw [if_pos h, List.map_map]
  refine List.map_congr_left ?_
  intro p _
  by_cases hp : p.1 = m <;> simp [hp]

theorem sum_ap_map_replace (s : RecordStore) (m : Nat) (newRec r₀ : MonthlyRecord)
    (hnd : (s.map Prod.fst).Nodup) (hl : lookupMonth s m = some r₀) :
    ((s.map (fun p => if p.1 = m then (m, newRec) else p)).map
        (fun p => p.2.actual_profit)).sum =
      (s.map (fun p => p.2.actual_profit)).sum - r₀.actual_profit + newRec.actual_profit := by
  induction s with
  | nil => simp [lookupMonth] at hl
  | cons p t ih =>
      obtain ⟨k, r⟩ := p
      simp only [List.map_cons, List.nodup_cons] at hnd
      by_cases hk : k = m
      · subst hk
        have hr : r = r₀ := by simpa [lookupMonth] using hl
        rw [← hr]
        have htail : t.map (fun p => if p.1 = k then (k, newRec) else p) = t := by
          have hids : ∀ p ∈ t, (if p.1 = k then (k, newRec) else p) = p := by
            intro p hp
            have hpk : p.1 ≠ k := fun h => hnd.1 (h ▸ List.mem_map.2 ⟨p, hp, rfl⟩)
            simp [hpk]
          exact (List.map_congr_left hids).trans (List.map_id t)
        simp only [List.map_cons, htail, if_true, ite_true, List.sum_cons]
        ring
      · have hl' : lookupMonth t m = some r₀ := by simpa [lookupMonth, hk] using hl
        simp only [List.map_cons]
        rw [show (if (k, r).1 = m then (m, newRec) else (k, r)) = (k, r) from if_neg hk]
        simp only [List.map_cons, List.sum_cons, ih hnd.2 hl']
        ring

/-- C8: upserting a month that is already present changes only that month's
record: every other month still maps to its old record, the key set (and hence
the store's size) is unchanged — nothing is deleted — and the recomputed
cumulative profit equals the old direct sum with the edited month's old value
replaced by the new one, with no stale contribution. -/
theorem C8_edit_frame (s : RecordStore) (m : Nat) (raw : ℚ) (r₀ : MonthlyRecord)
    (hnd : (s.map Prod.fst).Nodup) (hl : lookupMonth s m = some r₀) :
    (∀ mq, mq ≠ m → lookupMonth (upsert s m raw) mq = lookupMonth s mq) ∧
    lookupMonth (upsert s m raw) m =
      some { actual_profit := raw * 10000
             performance_diff := raw * 10000 - Config.MONTHLY_TARGET } ∧
    (upsert s m raw).map Prod.fst = s.map Prod.fst ∧
    (_recalculate_totals (upsert s m raw)).1 =
      dashboard_cumulative_profit s - r₀.actual_profit + raw * 10000 := by
  have hmem : m ∈ s.map Prod.fst := keys_mem_of_lookupMonth_eq_some hl
  have hkeys : (upsert s m raw).map Prod.fst = s.map Prod.fst :=
    keys_dictInsert_of_mem s m _ hmem
  have hnd' : ((upsert s m raw).map Prod.fst).Nodup := hkeys ▸ hnd
  refine ⟨fun mq hne => lookupMonth_dictInsert_ne s m mq _ hne,
    lookupMonth_dictInsert_self s m _, hkeys, ?_⟩
  rw [recalc_eq_direct _ hnd']
  show dashboard_cumulative_profit (upsert s m raw) = _
  unfold dashboard_cumulative_profit upsert _update_month_record dictInsert
  rw [if_pos hmem]
  exact sum_ap_map_replace s m _ r₀ hnd hl

/-- Witness for C8: editing month 2 of a one-month store. -/
theorem C8_edit_frame_witness :
    (∀ mq, mq ≠ 2 → lookupMonth (upsert [(2, ⟨1, 2⟩)] 2 30) mq =
        lookupMonth [(2, ⟨1, 2⟩)] mq) ∧
    lookupMonth (upsert [(2, ⟨1, 2⟩)] 2 30) 2 =
      some { actual_profit := 30 * 10000
             performance_diff := 30 * 10000 - Config.MONTHLY_TARGET } ∧
    (upsert [(2, ⟨1, 2⟩)] 2 30).map Prod.fst =
      ([(2, ⟨1, 2⟩)] : RecordStore).map Prod.fst ∧
    (_recalculate_totals (upsert [(2, ⟨1, 2⟩)] 2 30)).1 =
      dashboard_cumulative_profit [(2, ⟨1, 2⟩)] -
        (⟨1, 2⟩ : MonthlyRecord).actual_profit + 30 * 10000 :=
  C8_edit_frame [(2, ⟨1, 2⟩)] 2 30 ⟨1, 2⟩ (by decide) rfl

/-! ### Persistence claims -/

/-- C7: saving any record set and loading it back (in either front-end) yields
the identical `month -> (actual_profit, performance_diff)` association: integer
month keys survive the decimal string encoding of JSON object keys and the
numeric fields are carried over losslessly. -/
theorem C7_round_trip (records : RecordStore) :
    load_data (save_data records) = Except.ok records ∧
    _load_data (save_data records) = (records, LoadMessage.success) := by
  have h : parseStore (records.map (fun p => (Nat.digits 10 p.1, p.2))) = records := by
    unfold parseStore
    rw [List.map_map]
    have hid : ∀ p ∈ records,
        ((fun p : List Nat × MonthlyRecord => (Nat.ofDigits 10 p.1, p.2)) ∘
          (fun p : Nat × MonthlyRecord => (Nat.digits 10 p.1, p.2))) p = id p := by
      intro p _
      simp [Nat.ofDigits_digits]
    rw [List.map_congr_left hid, List.map_id]
  exact ⟨by simp [load_data, save_data, h], by simp [_load_data, save_data, h]⟩

/-- C4 counterexample: on malformed file content the dashboard's `load_data`
propagates the parse error (there is no handler at app.py lines 24-28), so it
does not recover to an empty record set — only the console loader does.  This
refutes the claim that BOTH front-ends recover from malformed content. -/
theorem C4_counterexample :
    load_data FileContent.malformed = Except.error () ∧
    _load_data FileContent.malformed = (([] : RecordStore), LoadMessage.warning) :=
  ⟨rfl, rfl⟩

/-- C4 (amended): both front-ends start empty when the file is absent; on
malformed content the console loader discards the state, starts empty and
surfaces a warning without crashing, while the dashboard loader yields no
record set at all (the parse error escapes). -/
theorem C4_load_recovery :
    load_data FileContent.absent = Except.ok ([] : RecordStore) ∧
    _load_data FileContent.absent = (([] : RecordStore), LoadMessage.info) ∧
    _load_data FileContent.malformed = (([] : RecordStore), LoadMessage.warning) ∧
    ¬ ∃ records : RecordStore, load_data FileContent.malformed = Except.ok records := by
  refine ⟨rfl, rfl, rfl, ?_⟩
  rintro ⟨records, h⟩
  simp [load_data] at h

/-- C5 counterexample: a persisted record whose stored `performance_diff` (999)
disagrees with `actual_profit - MONTHLY_TARGET` (= 20000) is loaded verbatim by
the console loader; load does NOT recompute the field, refuting the claimed
post-load consistency invariant. -/
theorem C5_counterexample :
    lookupMonth ((_load_data (FileContent.wellFormed [([5], ⟨200000, 999⟩)])).1) 5 =
      some ⟨200000, 999⟩ ∧
    (999 : ℚ) ≠ 200000 - Config.MONTHLY_TARGET := by
  constructor
  · rfl
  · norm_num [Config.MONTHLY_TARGET]

/-- C5 (amended): both loaders take every persisted record over verbatim — the
loaded values are exactly the stored ones and `performance_diff` is trusted,
not recomputed; the consistency equation is established by upserts at write
time (see the C3 theorem), not re-established on load. -/
theorem C5_load_trusts_stored_fields (data : JsonObject) :
    (_load_data (FileContent.wellFormed data)).1.map Prod.snd = data.map Prod.snd ∧
    load_data (FileContent.wellFormed data) =
      Except.ok ((_load_data (FileContent.wellFormed data)).1) := by
  constructor
  · simp [_load_data, parseStore, List.map_map]
  · rfl

/-- C9: when the save's underlying write raises an `IOError`, the console
handler catches it, surfaces an error message, and leaves the tracker's
in-memory records and aggregates untouched; a successful save leaves the
in-memory state untouched as well. -/
theorem C9_save_failure_atomicity (st : TrackerState) (file : FileContent) :
    (_save_data st false file).1 = st ∧
    (_save_data st false file).2.2 = true ∧
    (∀ ioOk, (_save_data st ioOk file).1 = st) := by
  refine ⟨rfl, rfl, ?_⟩
  intro ioOk
  cases ioOk <;> rfl

/-! ### Year-complete gating -/

theorem foldr_max_le_of_forall (l : List Nat) (b : Nat) (hb : ∀ x ∈ l, x ≤ b) :
    l.foldr max 0 ≤ b := by
  induction l with
  | nil => exact Nat.zero_le b
  | cons x t ih =>
      simp only [List.foldr_cons]
      exact max_le (hb x (List.mem_cons_self x t)) (ih fun y hy => hb y (List.mem_cons_of_mem x hy))

theorem le_foldr_max (l : List Nat) (x : Nat) (hx : x ∈ l) : x ≤ l.foldr max 0 := by
  induction l with
  | nil => simp at hx
  | cons y t ih =>
      simp only [List.foldr_cons]
      rcases List.mem_cons.1 hx with h | h
      · exact h ▸ le_max_left _ _
      · exact le_trans (ih h) (le_max_right _ _)

theorem maxKey_of_perm_range (records : RecordStore) (n : Nat) (hn : 1 ≤ n)
    (hperm : List.Perm (records.map Prod.fst) (List.range' Config.START_MONTH n)) :
    maxKey records = Config.START_MONTH + n - 1 := by
  unfold maxKey
  apply le_antisymm
  · apply foldr_max_le_of_forall
    intro x hx
    have hx2 := List.mem_range'_1.1 (hperm.subset hx)
    omega
  · apply le_foldr_max
    refine (hperm.mem_iff).2 (List.mem_range'_1.2 ?_)
    simp only [Config.START_MONTH]
    omega

/-- C6 counterexample: a store holding only month 12 makes the console loop
exit straight into the final summary (`_get_next_month` returns 13 > 12) even
though months 2..11 have no record and the claimed count predicate is false;
so the console's gate is neither the count predicate nor "every month has a
record". -/
theorem C6_counterexample :
    consoleYearComplete [(12, ⟨1, 1⟩)] ∧
    ¬ allMonthsFilled [(12, ⟨1, 1⟩)] ∧
    ¬ dashboardYearComplete [(12, ⟨1, 1⟩)] := by
  refine ⟨by decide, by decide, by decide⟩

/-- C6 (amended): the dashboard's bonus panel is gated by the count predicate
`len(records) >= END_MONTH - START_MONTH + 1`, but the console loop exits into
the final summary iff the store is nonempty and its largest recorded month is
at least `END_MONTH`; when the recorded months form a contiguous block
`START_MONTH..START_MONTH+n-1` — as the console's own sequential entry
produces — the console's exit condition, the count predicate and "every month
in `[START_MONTH, END_MONTH]` has a record" all coincide. -/
theorem C6_year_complete (records : RecordStore) (n : Nat)
    (hperm : List.Perm (records.map Prod.fst) (List.range' Config.START_MONTH n)) :
    (consoleYearComplete records ↔ records ≠ [] ∧ Config.END_MONTH ≤ maxKey records) ∧
    (consoleYearComplete records ↔ allMonthsFilled records) ∧
    (consoleYearComplete records ↔ dashboardYearComplete records) := by
  have hlen : records.length = n := by simpa using hperm.length_eq
  have hA : consoleYearComplete records ↔
      records ≠ [] ∧ Config.END_MONTH ≤ maxKey records := by
    unfold consoleYearComplete _get_next_month
    by_cases he : records = []
    · rw [he]
      simp [Config.START_MONTH, Config.END_MONTH]
    · rw [if_neg he]
      simp only [gt_iff_lt]
      constructor
      · intro h
        exact ⟨he, by omega⟩
      · rintro ⟨-, h⟩
        omega
  rcases Nat.eq_zero_or_pos n with hn | hn
  · subst hn
    have hkeys : records.map Prod.fst = [] := hperm.eq_nil
    have he : records = [] := List.map_eq_nil_iff.1 hkeys
    refine ⟨hA, ?_, ?_⟩
    · constructor
      · intro hc
        exact absurd he (hA.1 hc).1
      · intro hf
        exfalso
        have h2 : Config.START_MONTH ∈
            List.range' Config.START_MONTH (Config.END_MONTH - Config.START_MONTH + 1) := by
          decide
        have h3 := hf _ h2
        rw [hkeys] at h3
        simp at h3
    · constructor
      · intro hc
        exact absurd he (hA.1 hc).1
      · intro hd
        exfalso
        unfold dashboardYearComplete at hd
        rw [hlen] at hd
        simp [Config.START_MONTH, Config.END_MONTH] at hd
  · have hne : records ≠ [] := by
      intro he
      rw [he] at hlen
      simp at hlen
      omega
    have hmax : maxKey records = Config.START_MONTH + n - 1 :=
      maxKey_of_perm_range records n hn hperm
    have hconsole : consoleYearComplete records ↔
        Config.END_MONTH - Config.START_MONTH + 1 ≤ n := by
      rw [hA, hmax]
      simp only [Config.START_MONTH, Config.END_MONTH]
      constructor
      · rintro ⟨-, h⟩
        omega
      · intro h
        exact ⟨hne, by omega⟩
    refine ⟨hA, ?_, ?_⟩
    · rw [hconsole]
      constructor
      · intro h11 m hm
        have hm1 := List.mem_range'_1.1 hm
        refine (hperm.mem_iff).2 (List.mem_range'_1.2 ?_)
        simp only [Config.START_MONTH, Config.END_MONTH] at *
        omega
      · intro hf
        by_contra hlt
        have hm : Config.START_MONTH + n ∈
            List.range' Config.START_MONTH (Config.END_MONTH - Config.START_MONTH + 1) := by
          refine List.mem_range'_1.2 ?_
          simp only [Config.START_MONTH, Config.END_MONTH] at *
          omega
        have hmem := (hperm.mem_iff).1 (hf _ hm)
        have h3 := List.mem_range'_1.1 hmem
        omega
    · rw [hconsole]
      unfold dashboardYearComplete
      rw [hlen]

/-- Witness for C6 at the one-month contiguous store holding only month 2. -/
theorem C6_year_complete_witness :
    List.Perm (([(2, ⟨1, 1⟩)] : RecordStore).map Prod.fst)
      (List.range' Config.START_MONTH 1) ∧
    ((consoleYearComplete [(2, ⟨1, 1⟩)] ↔
        ([(2, ⟨1, 1⟩)] : RecordStore) ≠ [] ∧ Config.END_MONTH ≤ maxKey [(2, ⟨1, 1⟩)]) ∧
      (consoleYearComplete [(2, ⟨1, 1⟩)] ↔ allMonthsFilled [(2, ⟨1, 1⟩)]) ∧
      (consoleYearComplete [(2, ⟨1, 1⟩)] ↔ dashboardYearComplete [(2, ⟨1, 1⟩)])) :=
  ⟨List.Perm.refl _, C6_year_complete _ 1 (List.Perm.refl _)⟩
